import Mathlib

/-!
Shallow embedding of the `daemonizer` Go package (cyverse/go-daemonizer,
src/daemonizer.go).  OS-level effects (pipe creation, process start, pipe
writes, JSON decoding from a pipe) are modelled by an explicit environment
of oracles; each Go function becomes a pure Lean function from state and
environment to a result record carrying the Go return value together with
the externally observable effects (pipes created, process started, bytes
written, status records sent).
-/

namespace Daemonizer

/-- Model of `DaemonProcessArgumentName = "daemon_process"` (daemonizer.go:11). -/
def DaemonProcessArgumentName : String := "daemon_process"

/-- Model of `DaemonProcessArgument = "--" + DaemonProcessArgumentName` (daemonizer.go:12). -/
def DaemonProcessArgument : String := "--" ++ DaemonProcessArgumentName

/-- Model of a Go `interface\x7b\x7d` value stored in the params map: JSON-representable
values plus a marker for values `encoding/json` cannot marshal (channels,
functions, ...). -/
inductive JsonValue where
  | null
  | bool (b : Bool)
  | num (n : Int)
  | str (s : String)
  | arr (elems : List JsonValue)
  | obj (fields : List (String × JsonValue))
  | unserializable (tag : String)
deriving Repr

/-- Model of JSON string quoting as done by `encoding/json` (escaping elided). -/
def jsonQuote (s : String) : String := "\"" ++ s ++ "\""

mutual

/-- Model of `encoding/json.Marshal` on a single value: `none` when the value
contains something the codec cannot encode. -/
def jsonEncode : JsonValue → Option String
  | .null => some "null"
  | .bool true => some "true"
  | .bool false => some "false"
  | .num n => some (toString n)
  | .str s => some (jsonQuote s)
  | .arr es =>
    match jsonEncodeElems es with
    | some parts => some ("[" ++ String.intercalate "," parts ++ "]")
    | none => none
  | .obj fs =>
    match jsonEncodeFields fs with
    | some parts => some ("\x7b" ++ String.intercalate "," parts ++ "\x7d")
    | none => none
  | .unserializable _ => none

/-- Encode the elements of a JSON array; fails if any element fails. -/
def jsonEncodeElems : List JsonValue → Option (List String)
  | [] => some []
  | e :: rest =>
    match jsonEncode e, jsonEncodeElems rest with
    | some s, some ss => some (s :: ss)
    | _, _ => none

/-- Encode the fields of a JSON object; fails if any field value fails. -/
def jsonEncodeFields : List (String × JsonValue) → Option (List String)
  | [] => some []
  | (k, v) :: rest =>
    match jsonEncode v, jsonEncodeFields rest with
    | some s, some ss => some ((jsonQuote k ++ ":" ++ s) :: ss)
    | _, _ => none

end

/-- The params map `map[string]interface\x7b\x7d`, modelled as an association list. -/
abbrev Params : Type := List (String × JsonValue)

/-- Model of `daemonProcessInitRequest` (daemonizer.go:28-30): the single-field envelope
`\x7b"params": ...\x7d` marshalled by the parent.  `none` models a `json.Marshal`
failure. -/
def encodeInitRequest (params : Params) : Option String :=
  jsonEncode (.obj [("params", .obj params)])

/-- Model of `daemonProcessResponse` (daemonizer.go:32-35). -/
structure DaemonProcessResponse where
  status : String
  message : String
deriving Repr, DecidableEq

/-- The package's error values (daemonizer.go:15-26) together with dynamic
errors: raw OS errors (returned unwrapped by `runDaemonProcess`), the error
built by `errors.New(msg.Message)` in `Daemonize`, daemon-side decode errors,
and daemon-side encode errors. -/
inductive Err where
  | notParentProcess
  | notDaemonProcess
  | runDaemonFailed
  | paramNotSerializable
  | paramSendFailed
  | osError (msg : String)
  | daemonError (msg : String)
  | decodeError (msg : String)
  | encodeError (msg : String)
deriving Repr, DecidableEq

/-- Result of a Go call that can return normally (`ok ()` = `nil` error),
return an error, or crash with a runtime panic (index out of range). -/
inductive Outcome (α : Type) where
  | ok (a : α)
  | err (e : Err)
  | crash (msg : String)
deriving Repr, DecidableEq

/-- The `*os.File` handles that can appear in the child's descriptor table. -/
inductive File where
  | osStdin
  | osStdout
  | osStderr
  | paramReadPipe
  | paramWritePipe
  | outputReadPipe
  | outputWritePipe
  | custom (n : Nat)
deriving Repr, DecidableEq

/-- Model of `DaemonizeOption` (daemonizer.go:49-55). -/
structure DaemonizeOption where
  dir : String := ""
  stdin : Option File := none
  stdout : Option File := none
  stderr : Option File := none
  env : Option (List String) := none
deriving Repr, DecidableEq

/-- The `Daemonizer` state (daemonizer.go:37-47); the pipe and process handles
are modelled as effects of the operations rather than stored handles. -/
structure Daemonizer where
  daemon : Bool
  commandArguments : List String
  params : Params
deriving Repr

/-- The loop body of `readCommandArguments` (daemonizer.go:106-112), scanning
`os.Args` once: the marker sets the daemon flag, every other argument is
appended to the cleaned list. -/
def readCommandArgumentsLoop : List String → Bool → List String → Bool × List String
  | [], daemon, acc => (daemon, acc)
  | arg :: rest, daemon, acc =>
    if arg = DaemonProcessArgument then
      readCommandArgumentsLoop rest true acc
    else
      readCommandArgumentsLoop rest daemon (acc ++ [arg])

/-- Model of `readCommandArguments` (daemonizer.go:104-119): returns the daemon flag and
the cleaned argument list. -/
def readCommandArguments (osArgs : List String) : Bool × List String :=
  readCommandArgumentsLoop osArgs false []

/-- Model of `IsDaemon` (daemonizer.go:121-123). -/
def IsDaemon (d : Daemonizer) : Bool := d.daemon

/-- Model of `GetParams` (daemonizer.go:160-162). -/
def GetParams (d : Daemonizer) : Params := d.params

/-- Model of `GetCommandArguments` (daemonizer.go:164-166). -/
def GetCommandArguments (d : Daemonizer) : List String := d.commandArguments

/-- The fixed descriptor slot the daemon side wires as its parameter read end
(daemonizer.go:291). -/
def daemonParamReadFd : Nat := 3

/-- The fixed descriptor slot the daemon side wires as its status write end
(daemonizer.go:292). -/
def daemonOutputWriteFd : Nat := 4

/-- The child's descriptor table built in `runDaemonProcess`
(daemonizer.go:184-198): starts as `[os.Stdin, os.Stdout, os.Stderr, paramR,
outputW]`, then slots 0/1/2 are overwritten by the non-nil option fields. -/
def buildAttrFiles (option : DaemonizeOption) : List File :=
  let files := [File.osStdin, File.osStdout, File.osStderr,
                File.paramReadPipe, File.outputWritePipe]
  let files := match option.stdin with
    | some f => files.set 0 f
    | none => files
  let files := match option.stdout with
    | some f => files.set 1 f
    | none => files
  let files := match option.stderr with
    | some f => files.set 2 f
    | none => files
  files

/-- The loop building `newCommandArguments` (daemonizer.go:205-211): copies the
arguments, inserting the marker right after index 0.  On an empty list the
loop body never runs and no marker is inserted. -/
def newCommandArgumentsLoop : List String → Nat → List String → List String
  | [], _, acc => acc
  | arg :: rest, argIdx, acc =>
    let acc := acc ++ [arg]
    let acc := if argIdx = 0 then acc ++ [DaemonProcessArgument] else acc
    newCommandArgumentsLoop rest (argIdx + 1) acc

/-- Model of `newCommandArguments` as built by `runDaemonProcess` from the cleaned
argument list. -/
def newCommandArguments (args : List String) : List String :=
  newCommandArgumentsLoop args 0 []

/-- Oracle environment for the parent-side OS effects: the results of the two
`os.Pipe` calls, of `os.StartProcess`, of the write to the parameter pipe, and
the stream of decode results the status-pipe decoder produces (`[]` after the
last element models `io.EOF`). -/
structure Env where
  paramPipe : Except String Unit
  outputPipe : Except String Unit
  startProcess : Except String Unit
  writeOk : Bool
  statusStream : List (Except String DaemonProcessResponse)

/-- Result of `runDaemonProcess`, with the externally observable effects. -/
structure RunResult where
  outcome : Outcome Daemonizer
  pipeCalls : Nat
  startCalled : Bool
  startArgv : Option (String × List String)
  files : Option (List File)
deriving Repr

/-- Model of `runDaemonProcess` (daemonizer.go:170-225): create the two pipes, build the
child descriptor table, build the marker-bearing argument vector, and start
`d.commandArguments[0]` — a runtime panic (index out of range) when the cleaned
argument list is empty. -/
def runDaemonProcess (d : Daemonizer) (option : DaemonizeOption) (env : Env) :
    RunResult :=
  match env.paramPipe with
  | .error e =>
    { outcome := .err (.osError e), pipeCalls := 1, startCalled := false,
      startArgv := none, files := none }
  | .ok () =>
    match env.outputPipe with
    | .error e =>
      { outcome := .err (.osError e), pipeCalls := 2, startCalled := false,
        startArgv := none, files := none }
    | .ok () =>
      let files := buildAttrFiles option
      let newArgs := newCommandArguments d.commandArguments
      match d.commandArguments with
      | [] =>
        { outcome := .crash "runtime error: index out of range",
          pipeCalls := 2, startCalled := false, startArgv := none,
          files := some files }
      | path :: _ =>
        match env.startProcess with
        | .error e =>
          { outcome := .err (.osError e), pipeCalls := 2, startCalled := true,
            startArgv := some (path, newArgs), files := some files }
        | .ok () =>
          { outcome := .ok d, pipeCalls := 2, startCalled := true,
            startArgv := some (path, newArgs), files := some files }

/-- Result of `sendParamsToDaemonProcess`: the Go return value, the bytes
passed to the pipe write (if a write happened), and whether the write end was
closed (the deferred close always runs). -/
structure SendResult where
  result : Except Err Unit
  written : Option String
  pipeClosed : Bool
deriving Repr

/-- Model of `sendParamsToDaemonProcess` (daemonizer.go:229-247): marshal the
single-field envelope; a marshal failure is `ErrParamNotSerializable`, a write
failure after successful marshalling is `ErrParamSendFailed`; the deferred
close of the write end runs on every path. -/
def sendParamsToDaemonProcess (params : Params) (writeOk : Bool) : SendResult :=
  match encodeInitRequest params with
  | none =>
    { result := .error .paramNotSerializable, written := none, pipeClosed := true }
  | some paramBytes =>
    if writeOk then
      { result := .ok (), written := some paramBytes, pipeClosed := true }
    else
      { result := .error .paramSendFailed, written := some paramBytes,
        pipeClosed := true }

/-- Model of `readOutputFromDaemonProcess` (daemonizer.go:251-281): the sequence of
records delivered on the channel as a function of the decoder's results.
End of the list is `io.EOF` (loop breaks, channel closes); a decode error is
delivered as a synthesized `"error"` record and ends the loop. -/
def readOutputFromDaemonProcess :
    List (Except String DaemonProcessResponse) → List DaemonProcessResponse
  | [] => []
  | (Except.error e) :: _ => [{ status := "error", message := e }]
  | (Except.ok msg) :: rest => msg :: readOutputFromDaemonProcess rest

/-- The `for msg := range ...` switch in `Daemonize` (daemonizer.go:148-157):
`"success"` returns nil, `"error"` returns `errors.New(msg.Message)`, any other
status is skipped; draining the channel falls through to a nil return. -/
def messageLoop : List DaemonProcessResponse → Outcome Unit
  | [] => .ok ()
  | msg :: rest =>
    if msg.status = "success" then .ok ()
    else if msg.status = "error" then .err (.daemonError msg.message)
    else messageLoop rest

/-- Result of `Daemonize`, with the final state and observable effects. -/
structure DaemonizeResult where
  result : Outcome Unit
  state : Daemonizer
  pipeCalls : Nat
  startCalled : Bool
  startArgv : Option (String × List String)
  files : Option (List File)
  written : Option String
  channelMsgs : List DaemonProcessResponse
deriving Repr

/-- Model of `Daemonize` (daemonizer.go:127-158): role check, store params, launch,
send params, then block on the status channel. -/
def Daemonize (d : Daemonizer) (params : Params) (option : DaemonizeOption)
    (env : Env) : DaemonizeResult :=
  if d.daemon then
    { result := .err .notParentProcess, state := d, pipeCalls := 0,
      startCalled := false, startArgv := none, files := none, written := none,
      channelMsgs := [] }
  else
    let d := { d with params := params }
    let run := runDaemonProcess d option env
    match run.outcome with
    | .crash m =>
      { result := .crash m, state := d, pipeCalls := run.pipeCalls,
        startCalled := run.startCalled, startArgv := run.startArgv,
        files := run.files, written := none, channelMsgs := [] }
    | .err e =>
      { result := .err e, state := d, pipeCalls := run.pipeCalls,
        startCalled := run.startCalled, startArgv := run.startArgv,
        files := run.files, written := none, channelMsgs := [] }
    | .ok d₁ =>
      let send := sendParamsToDaemonProcess d₁.params env.writeOk
      match send.result with
      | .error e =>
        { result := .err e, state := d₁, pipeCalls := run.pipeCalls,
          startCalled := run.startCalled, startArgv := run.startArgv,
          files := run.files, written := send.written, channelMsgs := [] }
      | .ok () =>
        let msgs := readOutputFromDaemonProcess env.statusStream
        { result := messageLoop msgs, state := d₁, pipeCalls := run.pipeCalls,
          startCalled := run.startCalled, startArgv := run.startArgv,
          files := run.files, written := send.written, channelMsgs := msgs }

/-- Oracle environment for the daemon-side OS effects: the result of decoding
the parameter envelope from fd 3 (`paramDecode`), and the result of the JSON
encoder writing a status record to fd 4 (`sendResult`). -/
structure DaemonEnv where
  paramDecode : Except String Params
  sendResult : Except String Unit

/-- Result of `sendResponseToParentProcess`: the Go return value and the
records actually encoded onto the status pipe. -/
structure SendRespResult where
  result : Except String Unit
  sent : List DaemonProcessResponse
deriving Repr

/-- Model of `sendResponseToParentProcess` (daemonizer.go:329-344): encodes one
`\x7bstatus, message\x7d` record onto the status pipe's write end and closes it
(deferred close runs on every path). -/
def sendResponseToParentProcess (status message : String)
    (sendResult : Except String Unit) : SendRespResult :=
  match sendResult with
  | .error e => { result := .error e, sent := [] }
  | .ok () => { result := .ok (), sent := [{ status := status, message := message }] }

/-- Model of `readParamsFromParentProcess` (daemonizer.go:311-325): decode one envelope
from the parameter read pipe; on success return the decoded params map. -/
def readParamsFromParentProcess (env : DaemonEnv) : Except String Params :=
  env.paramDecode

/-- Result of `initDaemonProcess`: the Go return value, the state after the
call, the descriptor slots wired via `os.NewFile`, and the status records sent
to the parent. -/
structure InitResult where
  result : Except Err Unit
  state : Daemonizer
  wiredFds : List Nat
  sent : List DaemonProcessResponse

/-- Model of `initDaemonProcess` (daemonizer.go:285-307): role check, wire fds 3 and 4,
decode the params; on decode failure send an `"error"` status (its own error
discarded) and return the decode error; on success store the params and send a
`"success"` status, returning that send's error if it fails. -/
def initDaemonProcess (d : Daemonizer) (env : DaemonEnv) : InitResult :=
  if !d.daemon then
    { result := .error .notDaemonProcess, state := d, wiredFds := [], sent := [] }
  else
    let wired := [daemonParamReadFd, daemonOutputWriteFd]
    match readParamsFromParentProcess env with
    | .error e =>
      let resp := sendResponseToParentProcess "error" e env.sendResult
      { result := .error (.decodeError e), state := d, wiredFds := wired,
        sent := resp.sent }
    | .ok ps =>
      let d := { d with params := ps }
      let resp := sendResponseToParentProcess "success"
        "daemon process started successfully" env.sendResult
      match resp.result with
      | .error e =>
        { result := .error (.encodeError e), state := d, wiredFds := wired,
          sent := resp.sent }
      | .ok () =>
        { result := .ok (), state := d, wiredFds := wired, sent := resp.sent }

/-- Result of `NewDaemonizer`: the constructed instance or error, the value of
the process-global `os.Args` after construction, and the daemon-side effects. -/
structure NewResult where
  result : Except Err Daemonizer
  osArgsAfter : List String
  wiredFds : List Nat
  sent : List DaemonProcessResponse

/-- Model of `NewDaemonizer` (daemonizer.go:89-102): run `readCommandArguments` (which
overwrites `os.Args` with the cleaned list when the marker was present), and
in daemon role immediately run `initDaemonProcess`, failing if it fails. -/
def NewDaemonizer (osArgs : List String) (env : DaemonEnv) : NewResult :=
  let scan := readCommandArguments osArgs
  let daemon := scan.1
  let clean := scan.2
  let osArgsAfter := if daemon then clean else osArgs
  let d : Daemonizer := { daemon := daemon, commandArguments := clean, params := [] }
  if daemon then
    let init := initDaemonProcess d env
    match init.result with
    | .error e =>
      { result := .error e, osArgsAfter := osArgsAfter,
        wiredFds := init.wiredFds, sent := init.sent }
    | .ok () =>
      { result := .ok init.state, osArgsAfter := osArgsAfter,
        wiredFds := init.wiredFds, sent := init.sent }
  else
    { result := .ok d, osArgsAfter := osArgsAfter, wiredFds := [], sent := [] }

/-! Helper lemmas shared by the claim theorems. -/

/-- The argument-scanning loop accumulates the daemon flag and the filtered
argument list. -/
lemma readCommandArgumentsLoop_eq (args : List String) (daemon : Bool)
    (acc : List String) :
    readCommandArgumentsLoop args daemon acc =
      (daemon || args.any (fun a => a == DaemonProcessArgument),
       acc ++ args.filter (fun a => a != DaemonProcessArgument)) := by
  induction args generalizing daemon acc with
  | nil => simp [readCommandArgumentsLoop]
  | cons a rest ih =>
    by_cases h : a = DaemonProcessArgument
    · simp [readCommandArgumentsLoop, h, ih]
    · have hb : (a == DaemonProcessArgument) = false := by
        simp [h]
      simp [readCommandArgumentsLoop, h, hb, ih, List.filter_cons]

/-- Model of `readCommandArguments` returns the marker flag and the marker-free list. -/
lemma readCommandArguments_eq (osArgs : List String) :
    readCommandArguments osArgs =
      (osArgs.any (fun a => a == DaemonProcessArgument),
       osArgs.filter (fun a => a != DaemonProcessArgument)) := by
  simp [readCommandArguments, readCommandArgumentsLoop_eq]

/-- The daemon flag detected by the scan is exactly marker membership. -/
lemma readCommandArguments_fst (osArgs : List String) :
    ((readCommandArguments osArgs).1 = true ↔ DaemonProcessArgument ∈ osArgs) := by
  rw [readCommandArguments_eq]
  simp [List.any_eq_true]

/-- The marker never survives the filter. -/
lemma marker_not_mem_filter (args : List String) :
    DaemonProcessArgument ∉ args.filter (fun a => a != DaemonProcessArgument) := by
  simp [List.mem_filter]

/-- Filtering out an absent marker changes nothing. -/
lemma filter_marker_eq_self (args : List String)
    (h : DaemonProcessArgument ∉ args) :
    args.filter (fun a => a != DaemonProcessArgument) = args := by
  rw [List.filter_eq_self]
  intro a ha
  simp only [bne_iff_ne, ne_eq]
  intro heq
  exact h (heq ▸ ha)

/-- Past index 0 the argument-copying loop is a plain append. -/
lemma newCommandArgumentsLoop_past_zero (args : List String) (idx : Nat)
    (acc : List String) (h : idx ≠ 0) :
    newCommandArgumentsLoop args idx acc = acc ++ args := by
  induction args generalizing idx acc with
  | nil => simp [newCommandArgumentsLoop]
  | cons a rest ih =>
    simp only [newCommandArgumentsLoop]
    rw [if_neg h, ih (idx + 1) (acc ++ [a]) (Nat.succ_ne_zero idx)]
    simp

/-- The marker is inserted right after the program name. -/
lemma newCommandArguments_cons (a : String) (rest : List String) :
    newCommandArguments (a :: rest) = a :: DaemonProcessArgument :: rest := by
  simp [newCommandArguments, newCommandArgumentsLoop,
    newCommandArgumentsLoop_past_zero]

/-- On an empty argument list the loop body never runs: no marker is inserted. -/
lemma newCommandArguments_nil : newCommandArguments [] = [] := rfl

/-- A successful `runDaemonProcess` returns its input state unchanged. -/
lemma runDaemonProcess_ok (d : Daemonizer) (option : DaemonizeOption) (env : Env)
    (d' : Daemonizer)
    (h : (runDaemonProcess d option env).outcome = .ok d') : d' = d := by
  rcases h1 : env.paramPipe with e | u
  · simp [runDaemonProcess, h1] at h
  · rcases h2 : env.outputPipe with e | u
    · simp [runDaemonProcess, h1, h2] at h
    · rcases h3 : d.commandArguments with _ | ⟨a, rest⟩
      · simp [runDaemonProcess, h1, h2, h3] at h
      · rcases h4 : env.startProcess with e | u
        · simp [runDaemonProcess, h1, h2, h3, h4] at h
        · simp [runDaemonProcess, h1, h2, h3, h4] at h
          exact h.symm

/-- If the parent's message loop returns nil, it either saw a `"success"`
record or drained the channel seeing neither `"success"` nor `"error"`. -/
lemma messageLoop_ok (msgs : List DaemonProcessResponse)
    (h : messageLoop msgs = .ok ()) :
    (∃ msg ∈ msgs, msg.status = "success") ∨
    (∀ msg ∈ msgs, msg.status ≠ "success" ∧ msg.status ≠ "error") := by
  induction msgs with
  | nil => right; simp
  | cons m rest ih =>
    by_cases hs : m.status = "success"
    · left; exact ⟨m, by simp, hs⟩
    · by_cases he : m.status = "error"
      · simp [messageLoop, hs, he] at h
      · rw [messageLoop, if_neg hs, if_neg he] at h
        rcases ih h with h1 | h2
        · left
          obtain ⟨msg, hm, hst⟩ := h1
          exact ⟨msg, by simp [hm], hst⟩
        · right
          intro msg hm
          rcases List.mem_cons.mp hm with rfl | hm
          · exact ⟨hs, he⟩
          · exact h2 msg hm

/-! The claim theorems. -/

/-- C7: `sendParamsToDaemonProcess` writes exactly the serialized single-field
envelope to the parameter pipe and closes the write end; it returns
`ErrParamNotSerializable` exactly when the envelope cannot be encoded, and
`ErrParamSendFailed` exactly when the pipe write fails after successful
serialization. -/
theorem sendParams_contract (params : Params) (writeOk : Bool) :
    ((sendParamsToDaemonProcess params writeOk).result = .ok () ↔
      (encodeInitRequest params).isSome ∧ writeOk = true) ∧
    ((sendParamsToDaemonProcess params writeOk).result =
        .error .paramNotSerializable ↔ encodeInitRequest params = none) ∧
    ((sendParamsToDaemonProcess params writeOk).result = .error .paramSendFailed ↔
      (encodeInitRequest params).isSome ∧ writeOk = false) ∧
    (sendParamsToDaemonProcess params writeOk).written = encodeInitRequest params ∧
    (sendParamsToDaemonProcess params writeOk).pipeClosed = true ∧
    encodeInitRequest params = jsonEncode (.obj [("params", .obj params)]) := by
  refine ⟨?_, ?_, ?_, ?_, ?_, rfl⟩ <;>
  · rcases henc : encodeInitRequest params with _ | bs <;> cases writeOk <;>
      simp [sendParamsToDaemonProcess, henc]

/-- C8: in Daemon role, `Daemonize` returns `ErrNotParentProcess` having
created no pipe, started no process, written nothing, and left the state
unchanged. -/
theorem daemonize_daemon_role_rejected (d : Daemonizer) (params : Params)
    (option : DaemonizeOption) (env : Env) (h : d.daemon = true) :
    (Daemonize d params option env).result = .err .notParentProcess ∧
    (Daemonize d params option env).state = d ∧
    (Daemonize d params option env).pipeCalls = 0 ∧
    (Daemonize d params option env).startCalled = false ∧
    (Daemonize d params option env).startArgv = none ∧
    (Daemonize d params option env).written = none ∧
    (Daemonize d params option env).channelMsgs = [] := by
  simp [Daemonize, h]

/-- C8 witness: a concrete daemon-role instance. -/
theorem daemonize_daemon_role_rejected_witness :
    (Daemonize ⟨true, ["prog"], []⟩ [("k", .str "v")] {}
        ⟨.ok (), .ok (), .ok (), true, []⟩).result = .err .notParentProcess ∧
    (Daemonize ⟨true, ["prog"], []⟩ [("k", .str "v")] {}
        ⟨.ok (), .ok (), .ok (), true, []⟩).state = ⟨true, ["prog"], []⟩ ∧
    (Daemonize ⟨true, ["prog"], []⟩ [("k", .str "v")] {}
        ⟨.ok (), .ok (), .ok (), true, []⟩).pipeCalls = 0 ∧
    (Daemonize ⟨true, ["prog"], []⟩ [("k", .str "v")] {}
        ⟨.ok (), .ok (), .ok (), true, []⟩).startCalled = false := by
  have h := daemonize_daemon_role_rejected ⟨true, ["prog"], []⟩
    [("k", .str "v")] {} ⟨.ok (), .ok (), .ok (), true, []⟩ rfl
  exact ⟨h.1, h.2.1, h.2.2.1, h.2.2.2.1⟩

/-- C1: if the status stream reaches end-of-data having decoded zero status
records, the message loop in `Daemonize` exits with the channel empty and the
call falls through to a nil return. -/
theorem daemonize_empty_stream_nil
    (d : Daemonizer) (params : Params) (option : DaemonizeOption) (env : Env)
    (hrole : d.daemon = false)
    (hp1 : env.paramPipe = .ok ()) (hp2 : env.outputPipe = .ok ())
    (hargs : d.commandArguments ≠ [])
    (hstart : env.startProcess = .ok ())
    (henc : (encodeInitRequest params).isSome = true)
    (hw : env.writeOk = true)
    (hstream : env.statusStream = []) :
    (Daemonize d params option env).result = .ok () ∧
    (Daemonize d params option env).channelMsgs = [] := by
  obtain ⟨a, rest, hd⟩ : ∃ a rest, d.commandArguments = a :: rest := by
    cases hc : d.commandArguments with
    | nil => exact absurd hc hargs
    | cons a rest => exact ⟨a, rest, rfl⟩
  obtain ⟨bs, hbs⟩ := Option.isSome_iff_exists.mp henc
  constructor <;>
    simp [Daemonize, runDaemonProcess, sendParamsToDaemonProcess, hrole, hp1,
      hp2, hd, hstart, hbs, hw, hstream, readOutputFromDaemonProcess,
      messageLoop]

/-- C1 witness: a concrete parent-role run whose status stream is empty. -/
theorem daemonize_empty_stream_nil_witness :
    (Daemonize ⟨false, ["prog"], []⟩ [("host", .str "localhost")] {}
        ⟨.ok (), .ok (), .ok (), true, []⟩).result = .ok () ∧
    (Daemonize ⟨false, ["prog"], []⟩ [("host", .str "localhost")] {}
        ⟨.ok (), .ok (), .ok (), true, []⟩).channelMsgs = [] :=
  daemonize_empty_stream_nil ⟨false, ["prog"], []⟩ [("host", .str "localhost")]
    {} ⟨.ok (), .ok (), .ok (), true, []⟩ rfl rfl rfl (by simp) rfl rfl rfl rfl

/-- C2 counterexample: a parent-role execution that passes the role check,
launch and parameter send, returns nil, yet the status decode loop delivered
no message at all — in particular no `"success"` message. -/
theorem daemonize_nil_without_success :
    (Daemonize ⟨false, ["srv"], []⟩ [] {}
        ⟨.ok (), .ok (), .ok (), true, []⟩).result = .ok () ∧
    (Daemonize ⟨false, ["srv"], []⟩ [] {}
        ⟨.ok (), .ok (), .ok (), true, []⟩).channelMsgs = [] :=
  ⟨rfl, rfl⟩

/-- C2 (amended): for every execution of `Daemonize` that passes the role
check, launch, and parameter send, a nil return implies the status decode loop
either delivered a message with status `"success"`, or drained the stream
having delivered neither a `"success"` nor an `"error"` message. -/
theorem daemonize_nil_success_or_drained
    (d : Daemonizer) (params : Params) (option : DaemonizeOption) (env : Env)
    (hrole : d.daemon = false)
    (hp1 : env.paramPipe = .ok ()) (hp2 : env.outputPipe = .ok ())
    (hargs : d.commandArguments ≠ [])
    (hstart : env.startProcess = .ok ())
    (henc : (encodeInitRequest params).isSome = true)
    (hw : env.writeOk = true)
    (hnil : (Daemonize d params option env).result = .ok ()) :
    (∃ msg ∈ (Daemonize d params option env).channelMsgs,
      msg.status = "success") ∨
    (∀ msg ∈ (Daemonize d params option env).channelMsgs,
      msg.status ≠ "success" ∧ msg.status ≠ "error") := by
  obtain ⟨a, rest, hd⟩ : ∃ a rest, d.commandArguments = a :: rest := by
    cases hc : d.commandArguments with
    | nil => exact absurd hc hargs
    | cons a rest => exact ⟨a, rest, rfl⟩
  obtain ⟨bs, hbs⟩ := Option.isSome_iff_exists.mp henc
  have hres : (Daemonize d params option env).result =
      messageLoop (readOutputFromDaemonProcess env.statusStream) := by
    simp [Daemonize, runDaemonProcess, sendParamsToDaemonProcess, hrole, hp1,
      hp2, hd, hstart, hbs, hw]
  have hmsgs : (Daemonize d params option env).channelMsgs =
      readOutputFromDaemonProcess env.statusStream := by
    simp [Daemonize, runDaemonProcess, sendParamsToDaemonProcess, hrole, hp1,
      hp2, hd, hstart, hbs, hw]
  rw [hres] at hnil
  rw [hmsgs]
  exact messageLoop_ok _ hnil

/-- C2 (amended) witness: a concrete run that observes a `"success"` record. -/
theorem daemonize_nil_success_or_drained_witness :
    (∃ msg ∈ (Daemonize ⟨false, ["prog"], []⟩ [] {}
        ⟨.ok (), .ok (), .ok (), true,
         [.ok ⟨"success", "daemon process started successfully"⟩]⟩).channelMsgs,
      msg.status = "success") ∨
    (∀ msg ∈ (Daemonize ⟨false, ["prog"], []⟩ [] {}
        ⟨.ok (), .ok (), .ok (), true,
         [.ok ⟨"success", "daemon process started successfully"⟩]⟩).channelMsgs,
      msg.status ≠ "success" ∧ msg.status ≠ "error") :=
  daemonize_nil_success_or_drained ⟨false, ["prog"], []⟩ [] {}
    ⟨.ok (), .ok (), .ok (), true,
     [.ok ⟨"success", "daemon process started successfully"⟩]⟩
    rfl rfl rfl (by simp) rfl rfl rfl rfl

/-- C10: `Daemonize` stores the supplied params into the state before
launching; on every error return other than `ErrNotParentProcess`, `GetParams`
still returns the supplied mapping. -/
theorem params_stored_despite_error (d : Daemonizer) (params : Params)
    (option : DaemonizeOption) (env : Env) (e : Err)
    (herr : (Daemonize d params option env).result = .err e)
    (hne : e ≠ .notParentProcess) :
    GetParams (Daemonize d params option env).state = params := by
  by_cases hd : d.daemon
  · simp [Daemonize, hd] at herr
    exact absurd herr.symm hne
  · have hd' : d.daemon = false := by simpa using hd
    obtain ⟨dd, dargs, dparams⟩ := d
    simp only at hd'
    subst hd'
    rw [GetParams]
    rcases hrun : (runDaemonProcess ⟨false, dargs, params⟩ option env).outcome
      with d₁ | e₁ | m₁
    · have hd₁ : d₁ = (⟨false, dargs, params⟩ : Daemonizer) :=
        runDaemonProcess_ok _ _ _ _ hrun
      subst hd₁
      rcases hsend : (sendParamsToDaemonProcess params env.writeOk).result
        with e₂ | u
      · simp [Daemonize, hrun, hsend]
      · simp [Daemonize, hrun, hsend]
    · simp [Daemonize, hrun]
    · simp [Daemonize, hrun] at herr

/-- C10 witness: a concrete pipe-creation failure still leaves the params
readable. -/
theorem params_stored_despite_error_witness :
    GetParams (Daemonize ⟨false, ["prog"], []⟩ [("k", .num 1)] {}
        ⟨.error "pipe failed", .ok (), .ok (), true, []⟩).state =
      [("k", .num 1)] :=
  params_stored_despite_error ⟨false, ["prog"], []⟩ [("k", .num 1)] {}
    ⟨.error "pipe failed", .ok (), .ok (), true, []⟩ (.osError "pipe failed")
    rfl (by simp)

/-- A successfully constructed `Daemonizer` carries the detected flag and the
cleaned argument list. -/
lemma newDaemonizer_ok_state (osArgs : List String) (env : DaemonEnv)
    (d : Daemonizer) (hok : (NewDaemonizer osArgs env).result = .ok d) :
    d.daemon = (readCommandArguments osArgs).1 ∧
    d.commandArguments = (readCommandArguments osArgs).2 := by
  by_cases hf : (readCommandArguments osArgs).1 = true
  · rcases hdec : env.paramDecode with e | ps
    · simp [NewDaemonizer, initDaemonProcess, readParamsFromParentProcess,
        sendResponseToParentProcess, hf, hdec] at hok
    · rcases hsend : env.sendResult with e | u
      · simp [NewDaemonizer, initDaemonProcess, readParamsFromParentProcess,
          sendResponseToParentProcess, hf, hdec, hsend] at hok
      · simp [NewDaemonizer, initDaemonProcess, readParamsFromParentProcess,
          sendResponseToParentProcess, hf, hdec, hsend] at hok
        subst hok
        exact ⟨hf.symm, rfl⟩
  · have hf' : (readCommandArguments osArgs).1 = false := by simpa using hf
    simp [NewDaemonizer, hf'] at hok
    subst hok
    exact ⟨hf'.symm, rfl⟩

/-- The process-global argument vector after construction: overwritten with
the cleaned list when the marker was present, untouched otherwise. -/
lemma newDaemonizer_osArgsAfter (osArgs : List String) (env : DaemonEnv) :
    (NewDaemonizer osArgs env).osArgsAfter =
      (if (readCommandArguments osArgs).1 = true then
        (readCommandArguments osArgs).2 else osArgs) := by
  by_cases hf : (readCommandArguments osArgs).1 = true
  · rcases hdec : env.paramDecode with e | ps
    · simp [NewDaemonizer, initDaemonProcess, readParamsFromParentProcess,
        sendResponseToParentProcess, hf, hdec]
    · rcases hsend : env.sendResult with e | u <;>
        simp [NewDaemonizer, initDaemonProcess, readParamsFromParentProcess,
          sendResponseToParentProcess, hf, hdec, hsend]
  · have hf' : (readCommandArguments osArgs).1 = false := by simpa using hf
    simp [NewDaemonizer, hf']

/-- C4: role detection scans the argument vector once at construction; when
the marker is present the role is Daemon and the marker is stripped both from
the stored cleaned list and from the overwritten process-global `os.Args`;
when it is absent the role is Parent and the observed lists are unchanged. -/
theorem role_detection_contract (osArgs : List String) (env : DaemonEnv)
    (d : Daemonizer) (hok : (NewDaemonizer osArgs env).result = .ok d) :
    (IsDaemon d = true ↔ DaemonProcessArgument ∈ osArgs) ∧
    GetCommandArguments d =
      (if DaemonProcessArgument ∈ osArgs then
        osArgs.filter (fun a => a != DaemonProcessArgument) else osArgs) ∧
    DaemonProcessArgument ∉ GetCommandArguments d ∧
    (NewDaemonizer osArgs env).osArgsAfter =
      (if DaemonProcessArgument ∈ osArgs then GetCommandArguments d
       else osArgs) ∧
    DaemonProcessArgument ∉ (NewDaemonizer osArgs env).osArgsAfter := by
  obtain ⟨hd, hc⟩ := newDaemonizer_ok_state osArgs env d hok
  have hclean : (readCommandArguments osArgs).2 =
      osArgs.filter (fun a => a != DaemonProcessArgument) := by
    rw [readCommandArguments_eq]
  by_cases hm : DaemonProcessArgument ∈ osArgs
  · have hf : (readCommandArguments osArgs).1 = true :=
      (readCommandArguments_fst osArgs).mpr hm
    refine ⟨⟨fun _ => hm, fun _ => by rw [IsDaemon, hd, hf]⟩, ?_, ?_, ?_, ?_⟩
    · rw [GetCommandArguments, hc, hclean, if_pos hm]
    · rw [GetCommandArguments, hc, hclean]
      exact marker_not_mem_filter osArgs
    · rw [newDaemonizer_osArgsAfter, if_pos hf, if_pos hm, GetCommandArguments, hc]
    · rw [newDaemonizer_osArgsAfter, if_pos hf, hclean]
      exact marker_not_mem_filter osArgs
  · have hf0 : ¬((readCommandArguments osArgs).1 = true) :=
      fun h => hm ((readCommandArguments_fst osArgs).mp h)
    have hf : (readCommandArguments osArgs).1 = false := by simpa using hf0
    have hfilter : osArgs.filter (fun a => a != DaemonProcessArgument) = osArgs :=
      filter_marker_eq_self osArgs hm
    refine ⟨⟨fun h => absurd (by rw [IsDaemon, hd, hf] at h; exact h) (by simp),
      fun h => absurd h hm⟩, ?_, ?_, ?_, ?_⟩
    · rw [GetCommandArguments, hc, hclean, if_neg hm, hfilter]
    · rw [GetCommandArguments, hc, hclean, hfilter]
      exact hm
    · rw [newDaemonizer_osArgsAfter, if_neg hm]
      simp [hf]
    · rw [newDaemonizer_osArgsAfter]
      simp [hf]
      exact hm

/-- C4 witness: a concrete argument vector carrying the marker. -/
theorem role_detection_contract_witness :
    (IsDaemon ⟨true, ["prog", "x"], []⟩ = true ↔
      DaemonProcessArgument ∈ ["prog", "--daemon_process", "x"]) ∧
    GetCommandArguments ⟨true, ["prog", "x"], []⟩ =
      (if DaemonProcessArgument ∈ ["prog", "--daemon_process", "x"] then
        ["prog", "--daemon_process", "x"].filter
          (fun a => a != DaemonProcessArgument)
       else ["prog", "--daemon_process", "x"]) ∧
    DaemonProcessArgument ∉ GetCommandArguments ⟨true, ["prog", "x"], []⟩ ∧
    (NewDaemonizer ["prog", "--daemon_process", "x"]
        ⟨.ok [], .ok ()⟩).osArgsAfter =
      (if DaemonProcessArgument ∈ ["prog", "--daemon_process", "x"] then
        GetCommandArguments ⟨true, ["prog", "x"], []⟩
       else ["prog", "--daemon_process", "x"]) ∧
    DaemonProcessArgument ∉
      (NewDaemonizer ["prog", "--daemon_process", "x"]
        ⟨.ok [], .ok ()⟩).osArgsAfter :=
  role_detection_contract ["prog", "--daemon_process", "x"] ⟨.ok [], .ok ()⟩
    ⟨true, ["prog", "x"], []⟩ rfl

/-- C3: the child's descriptor table satisfies the fixed slot contract —
slots 0/1/2 are the option's streams or the parent's own, slot 3 the parameter
pipe's read end, slot 4 the status pipe's write end; `runDaemonProcess` passes
exactly this table to the child, and the daemon-side initializer wires exactly
fds 3 and 4. -/
theorem fd_table_contract (option : DaemonizeOption) (d : Daemonizer)
    (denv : DaemonEnv) (env : Env) (hdaemon : d.daemon = true)
    (hp1 : env.paramPipe = .ok ()) (hp2 : env.outputPipe = .ok ()) :
    buildAttrFiles option =
      [option.stdin.getD .osStdin, option.stdout.getD .osStdout,
       option.stderr.getD .osStderr, .paramReadPipe, .outputWritePipe] ∧
    (buildAttrFiles option)[daemonParamReadFd]? = some .paramReadPipe ∧
    (buildAttrFiles option)[daemonOutputWriteFd]? = some .outputWritePipe ∧
    (runDaemonProcess d option env).files = some (buildAttrFiles option) ∧
    (initDaemonProcess d denv).wiredFds =
      [daemonParamReadFd, daemonOutputWriteFd] := by
  have htable : buildAttrFiles option =
      [option.stdin.getD .osStdin, option.stdout.getD .osStdout,
       option.stderr.getD .osStderr, .paramReadPipe, .outputWritePipe] := by
    rcases option with ⟨dir, stdin, stdout, stderr, optenv⟩
    rcases stdin with _ | fin <;> rcases stdout with _ | fout <;>
      rcases stderr with _ | ferr <;> simp [buildAttrFiles]
  refine ⟨htable, ?_, ?_, ?_, ?_⟩
  · rw [htable]; rfl
  · rw [htable]; rfl
  · rcases hargs : d.commandArguments with _ | ⟨a, rest⟩
    · simp [runDaemonProcess, hp1, hp2, hargs]
    · rcases hstart : env.startProcess with e | u <;>
        simp [runDaemonProcess, hp1, hp2, hargs, hstart]
  · rcases hdec : denv.paramDecode with e | ps
    · simp [initDaemonProcess, readParamsFromParentProcess,
        sendResponseToParentProcess, hdaemon, hdec]
    · rcases hsend : denv.sendResult with e | u <;>
        simp [initDaemonProcess, readParamsFromParentProcess,
          sendResponseToParentProcess, hdaemon, hdec, hsend]

/-- C3 witness: a concrete option overriding stdout only, against a concrete
daemon-side instance. -/
theorem fd_table_contract_witness :
    buildAttrFiles ⟨"", none, some (.custom 7), none, none⟩ =
      [(none : Option File).getD .osStdin,
       (some (File.custom 7)).getD .osStdout,
       (none : Option File).getD .osStderr, .paramReadPipe, .outputWritePipe] ∧
    (buildAttrFiles ⟨"", none, some (.custom 7), none, none⟩)[daemonParamReadFd]? =
      some .paramReadPipe ∧
    (buildAttrFiles ⟨"", none, some (.custom 7), none, none⟩)[daemonOutputWriteFd]? =
      some .outputWritePipe ∧
    (runDaemonProcess ⟨true, ["prog"], []⟩
        ⟨"", none, some (.custom 7), none, none⟩
        ⟨.ok (), .ok (), .ok (), true, []⟩).files =
      some (buildAttrFiles ⟨"", none, some (.custom 7), none, none⟩) ∧
    (initDaemonProcess ⟨true, ["prog"], []⟩ ⟨.ok [], .ok ()⟩).wiredFds =
      [daemonParamReadFd, daemonOutputWriteFd] :=
  fd_table_contract ⟨"", none, some (.custom 7), none, none⟩
    ⟨true, ["prog"], []⟩ ⟨.ok [], .ok ()⟩ ⟨.ok (), .ok (), .ok (), true, []⟩
    rfl rfl rfl

/-- C6: every OS-level failure to create either pipe or to start the new
process image makes `runDaemonProcess` and hence `Daemonize` fail, and the
underlying OS error propagates to the caller. -/
theorem os_failure_propagates (d : Daemonizer) (params : Params)
    (option : DaemonizeOption) (env : Env) (e : String)
    (hrole : d.daemon = false)
    (hfail : env.paramPipe = .error e ∨
      (env.paramPipe = .ok () ∧ env.outputPipe = .error e) ∨
      (env.paramPipe = .ok () ∧ env.outputPipe = .ok () ∧
       d.commandArguments ≠ [] ∧ env.startProcess = .error e)) :
    (runDaemonProcess { d with params := params } option env).outcome =
      .err (.osError e) ∧
    (Daemonize d params option env).result = .err (.osError e) := by
  obtain ⟨dd, dargs, dparams⟩ := d
  simp only at hrole
  subst hrole
  rcases hfail with h1 | ⟨h1, h2⟩ | ⟨h1, h2, h3, h4⟩
  · constructor <;> simp [Daemonize, runDaemonProcess, h1]
  · constructor <;> simp [Daemonize, runDaemonProcess, h1, h2]
  · obtain ⟨a, rest, hd⟩ : ∃ a rest, dargs = a :: rest := by
      cases hc : dargs with
      | nil => exact absurd hc h3
      | cons a rest => exact ⟨a, rest, rfl⟩
    subst hd
    constructor <;> simp [Daemonize, runDaemonProcess, h1, h2, h4]

/-- C6 witness: a concrete `StartProcess` failure. -/
theorem os_failure_propagates_witness :
    (runDaemonProcess ⟨false, ["prog"], []⟩ {}
        ⟨.ok (), .ok (), .error "exec format error", true, []⟩).outcome =
      .err (.osError "exec format error") ∧
    (Daemonize ⟨false, ["prog"], []⟩ [] {}
        ⟨.ok (), .ok (), .error "exec format error", true, []⟩).result =
      .err (.osError "exec format error") :=
  os_failure_propagates ⟨false, ["prog"], []⟩ [] {}
    ⟨.ok (), .ok (), .error "exec format error", true, []⟩ "exec format error"
    rfl (Or.inr (Or.inr ⟨rfl, rfl, by simp, rfl⟩))

/-- The status message loop never produces a runtime crash. -/
lemma messageLoop_no_crash (msgs : List DaemonProcessResponse) (m : String) :
    messageLoop msgs ≠ .crash m := by
  induction msgs with
  | nil => simp [messageLoop]
  | cons msg rest ih =>
    by_cases hs : msg.status = "success"
    · simp [messageLoop, hs]
    · by_cases he : msg.status = "error"
      · simp [messageLoop, hs, he]
      · rw [messageLoop, if_neg hs, if_neg he]
        exact ih

/-- C9: with an empty cleaned argument list the launch step accesses element 0
of that empty list — a runtime panic reached before `StartProcess` is ever
called — and the marker is only inserted when an element at index 0 exists;
conversely `Daemonize` can only crash when the cleaned argument list is
empty. -/
theorem launch_requires_nonempty_args (d : Daemonizer) (params : Params)
    (option : DaemonizeOption) (env : Env) (m : String)
    (hrole : d.daemon = false) :
    (d.commandArguments = [] → env.paramPipe = .ok () →
      env.outputPipe = .ok () →
      (runDaemonProcess d option env).outcome =
        .crash "runtime error: index out of range" ∧
      (runDaemonProcess d option env).startCalled = false ∧
      (Daemonize d params option env).result =
        .crash "runtime error: index out of range") ∧
    newCommandArguments [] = [] ∧
    ((Daemonize d params option env).result = .crash m →
      d.commandArguments = []) := by
  obtain ⟨dd, dargs, dparams⟩ := d
  simp only at hrole
  subst hrole
  refine ⟨?_, rfl, ?_⟩
  · intro hargs hp1 hp2
    simp only at hargs
    subst hargs
    refine ⟨?_, ?_, ?_⟩
    · simp [runDaemonProcess, hp1, hp2]
    · simp [runDaemonProcess, hp1, hp2]
    · simp [Daemonize, runDaemonProcess, hp1, hp2]
  · intro hcrash
    by_contra hne
    simp only at hne
    obtain ⟨a, rest, hd⟩ : ∃ a rest, dargs = a :: rest := by
      cases hc : dargs with
      | nil => exact absurd hc hne
      | cons a rest => exact ⟨a, rest, rfl⟩
    subst hd
    rcases h1 : env.paramPipe with e | u
    · simp [Daemonize, runDaemonProcess, h1] at hcrash
    · rcases h2 : env.outputPipe with e | u
      · simp [Daemonize, runDaemonProcess, h1, h2] at hcrash
      · rcases h3 : env.startProcess with e | u
        · simp [Daemonize, runDaemonProcess, h1, h2, h3] at hcrash
        · rcases h4 : (sendParamsToDaemonProcess params env.writeOk).result
            with e | u
          · simp [Daemonize, runDaemonProcess, h1, h2, h3, h4] at hcrash
          · simp [Daemonize, runDaemonProcess, h1, h2, h3, h4] at hcrash
            exact messageLoop_no_crash _ m hcrash

/-- C9 witness: a concrete parent-role call with an empty argument list. -/
theorem launch_requires_nonempty_args_witness :
    (runDaemonProcess ⟨false, [], []⟩ {}
        ⟨.ok (), .ok (), .ok (), true, []⟩).outcome =
      .crash "runtime error: index out of range" ∧
    (runDaemonProcess ⟨false, [], []⟩ {}
        ⟨.ok (), .ok (), .ok (), true, []⟩).startCalled = false ∧
    (Daemonize ⟨false, [], []⟩ [] {}
        ⟨.ok (), .ok (), .ok (), true, []⟩).result =
      .crash "runtime error: index out of range" ∧
    newCommandArguments [] = [] := by
  have h := launch_requires_nonempty_args ⟨false, [], []⟩ [] {}
    ⟨.ok (), .ok (), .ok (), true, []⟩ "m" rfl
  obtain ⟨h1, h2, _⟩ := h
  obtain ⟨a, b, c⟩ := h1 rfl rfl rfl
  exact ⟨a, b, c, h2⟩

/-- C5: a daemon-side parameter decode failure is observed on both sides: the
initializer first sends an `"error"` status carrying the decode error's
message, then returns that decode error so `NewDaemonizer` fails; a parent
whose status stream delivers exactly those records gets a non-nil error from
`Daemonize` carrying the daemon's reported message. -/
theorem decode_failure_propagates
    (osArgs : List String) (denv : DaemonEnv) (e : String)
    (hmark : DaemonProcessArgument ∈ osArgs)
    (hdec : denv.paramDecode = .error e)
    (hsendOk : denv.sendResult = .ok ())
    (d₂ : Daemonizer) (params : Params) (option : DaemonizeOption) (env : Env)
    (hrole : d₂.daemon = false)
    (hp1 : env.paramPipe = .ok ()) (hp2 : env.outputPipe = .ok ())
    (hargs : d₂.commandArguments ≠ [])
    (hstart : env.startProcess = .ok ())
    (henc : (encodeInitRequest params).isSome = true)
    (hw : env.writeOk = true)
    (hstream : env.statusStream =
      (NewDaemonizer osArgs denv).sent.map Except.ok) :
    (NewDaemonizer osArgs denv).sent = [⟨"error", e⟩] ∧
    (NewDaemonizer osArgs denv).result = .error (.decodeError e) ∧
    (Daemonize d₂ params option env).result = .err (.daemonError e) := by
  have hf : (readCommandArguments osArgs).1 = true :=
    (readCommandArguments_fst osArgs).mpr hmark
  have hsent : (NewDaemonizer osArgs denv).sent = [⟨"error", e⟩] := by
    simp [NewDaemonizer, initDaemonProcess, readParamsFromParentProcess,
      sendResponseToParentProcess, hf, hdec, hsendOk]
  have hres : (NewDaemonizer osArgs denv).result = .error (.decodeError e) := by
    simp [NewDaemonizer, initDaemonProcess, readParamsFromParentProcess,
      sendResponseToParentProcess, hf, hdec, hsendOk]
  refine ⟨hsent, hres, ?_⟩
  rw [hsent] at hstream
  obtain ⟨a, rest, hd⟩ : ∃ a rest, d₂.commandArguments = a :: rest := by
    cases hc : d₂.commandArguments with
    | nil => exact absurd hc hargs
    | cons a rest => exact ⟨a, rest, rfl⟩
  obtain ⟨bs, hbs⟩ := Option.isSome_iff_exists.mp henc
  have hml : messageLoop [⟨"error", e⟩] = .err (.daemonError e) := rfl
  simp [Daemonize, runDaemonProcess, sendParamsToDaemonProcess, hrole, hp1,
    hp2, hd, hstart, hbs, hw, hstream, readOutputFromDaemonProcess, hml]

/-- C5 witness: a concrete malformed-parameter scenario. -/
theorem decode_failure_propagates_witness :
    (NewDaemonizer ["app", "--daemon_process"]
        ⟨.error "invalid character", .ok ()⟩).sent =
      [⟨"error", "invalid character"⟩] ∧
    (NewDaemonizer ["app", "--daemon_process"]
        ⟨.error "invalid character", .ok ()⟩).result =
      .error (.decodeError "invalid character") ∧
    (Daemonize ⟨false, ["app"], []⟩ [] {}
        ⟨.ok (), .ok (), .ok (), true,
         [.ok ⟨"error", "invalid character"⟩]⟩).result =
      .err (.daemonError "invalid character") :=
  decode_failure_propagates ["app", "--daemon_process"]
    ⟨.error "invalid character", .ok ()⟩ "invalid character" (by decide)
    rfl rfl ⟨false, ["app"], []⟩ [] {}
    ⟨.ok (), .ok (), .ok (), true, [.ok ⟨"error", "invalid character"⟩]⟩
    rfl rfl rfl (by simp) rfl rfl rfl rfl

end Daemonizer
